import Mathlib

/-
Shallow embedding of the gaiaoffline-ts ingestion pipeline.

The embedding follows the TypeScript sources:
  * src/src/database.ts      — tracking tables, batch inserts, cone search
  * src/src/coordinator.ts   — per-batch accumulate / insert / mark logic
  * src/unnamed/part_002     — ParallelDownloader (downloadFile, streamDownload)
  * src/src/utils.ts and src/unnamed/part_005 — streamGzippedCSV batching

JavaScript numbers are modelled as rationals where only equality and
counting matter, and as real numbers where trigonometry is involved
(the cone-search query).  SQLite tables are modelled as lists of rows;
"INSERT OR IGNORE" keyed on the primary key skips a row whose key is
already present and appends it otherwise.
-/

namespace GaiaOffline

/-! ## Catalog store: file-tracking tables (src/src/database.ts, lines 90-182) -/

inductive FileStatus where
  | pending
  | completed
  | failed
deriving DecidableEq

/-- A tracking table is a list of rows (url PRIMARY KEY, status). -/
abbrev TrackingTable := List (String × FileStatus)

/-- `SELECT status FROM t WHERE url = ?` (first row matching the primary key). -/
def lookupStatus (t : TrackingTable) (url : String) : Option FileStatus :=
  (t.find? (fun e => e.1 == url)).map (fun e => e.2)

/-- `INSERT OR IGNORE INTO t (url, status) VALUES (?, 'pending')`. -/
def insertOrIgnorePending (t : TrackingTable) (url : String) : TrackingTable :=
  if (t.find? (fun e => e.1 == url)).isSome then t
  else t ++ [(url, FileStatus.pending)]

/-- `INSERT OR REPLACE INTO t (url, status) VALUES (?, 'pending')`. -/
def insertOrReplacePending (t : TrackingTable) (url : String) : TrackingTable :=
  if (t.find? (fun e => e.1 == url)).isSome then
    t.map (fun e => if e.1 == url then (e.1, FileStatus.pending) else e)
  else t ++ [(url, FileStatus.pending)]

/-- `GaiaDatabase.initializeTracking(tableName, urls, overwrite = false)`
(database.ts lines 102-122): one prepared statement run per url inside a
transaction; `INSERT OR IGNORE` unless `overwrite` is set. -/
def initializeTracking (t : TrackingTable) (urls : List String) (overwrite : Bool) :
    TrackingTable :=
  urls.foldl
    (fun acc url =>
      if overwrite then insertOrReplacePending acc url else insertOrIgnorePending acc url)
    t

/-- `GaiaDatabase.isFileProcessed` (database.ts lines 127-133):
true exactly when the stored status is 'completed'. -/
def isFileProcessed (t : TrackingTable) (url : String) : Bool :=
  lookupStatus t url == some FileStatus.completed

/-- `UPDATE t SET status = 'completed' WHERE url = ?`. -/
def markFileCompleted (t : TrackingTable) (url : String) : TrackingTable :=
  t.map (fun e => if e.1 == url then (e.1, FileStatus.completed) else e)

/-- `UPDATE t SET status = 'failed' WHERE url = ?`. -/
def markFileFailed (t : TrackingTable) (url : String) : TrackingTable :=
  t.map (fun e => if e.1 == url then (e.1, FileStatus.failed) else e)

/-- `populateGaiaDR3` (coordinator.ts lines 72-75): the urls the run will
download and process are those not yet marked completed. -/
def pendingUrlsOf (t : TrackingTable) (urls : List String) : List String :=
  urls.filter (fun url => !(isFileProcessed t url))

/-! ## Catalog store: gaiadr3 / tmass_xmatch / tmass inserts
(src/src/database.ts, lines 187-262) -/

/-- One row destined for the gaiadr3 table; `source_id` is the TEXT PRIMARY
KEY, the remaining configured columns are numeric-or-null. -/
structure GaiaRecord where
  source_id : String
  ra : ℚ
  dec : ℚ
  extra : List (String × Option ℚ)
deriving DecidableEq

abbrev GaiaTable := List GaiaRecord

def hasSourceId (t : GaiaTable) (sid : String) : Bool :=
  t.any (fun r => r.source_id == sid)

/-- One `INSERT OR IGNORE INTO gaiadr3 ... VALUES ...` statement run. -/
def insertOrIgnoreGaia (t : GaiaTable) (r : GaiaRecord) : GaiaTable :=
  if hasSourceId t r.source_id then t else t ++ [r]

/-- `GaiaDatabase.insertGaiaRecords` (database.ts lines 187-210): single
transaction; one `INSERT OR IGNORE` per record; `insertedCount` is
incremented for every record, ignored or not.  Returns the new table
state and the returned `insertedCount`. -/
def insertGaiaRecords (t : GaiaTable) (records : List GaiaRecord) : GaiaTable × Nat :=
  records.foldl (fun acc r => (insertOrIgnoreGaia acc.1 r, acc.2 + 1)) (t, 0)

structure TmassXmatchRecord where
  gaiadr3_source_id : String
  tmass_source_id : String
deriving DecidableEq

/-- `GaiaDatabase.insertTmassXmatchRecords` (database.ts lines 215-233):
`INSERT OR IGNORE INTO tmass_xmatch ...` with gaiadr3_source_id as the
primary key; the count again counts every record of the batch. -/
def insertTmassXmatchRecords (t : List TmassXmatchRecord) (records : List TmassXmatchRecord) :
    List TmassXmatchRecord × Nat :=
  records.foldl
    (fun acc r =>
      ((if acc.1.any (fun x => x.gaiadr3_source_id == r.gaiadr3_source_id) then acc.1
        else acc.1 ++ [r]),
       acc.2 + 1))
    (t, 0)

structure TmassRecord where
  gaiadr3_source_id : String
  tmass_source_id : String
  j_m : Option ℚ
  h_m : Option ℚ
  k_m : Option ℚ
deriving DecidableEq

/-- `GaiaDatabase.insertTmassRecords` (database.ts lines 238-262). -/
def insertTmassRecords (t : List TmassRecord) (records : List TmassRecord) :
    List TmassRecord × Nat :=
  records.foldl
    (fun acc r =>
      ((if acc.1.any (fun x => x.gaiadr3_source_id == r.gaiadr3_source_id) then acc.1
        else acc.1 ++ [r]),
       acc.2 + 1))
    (t, 0)

/-! ## Pipeline coordinator: one batch of `processBatchedPipeline`
(src/src/coordinator.ts, lines 298-345) -/

structure PopulateStats where
  totalFiles : Nat
  completedFiles : Nat
  failedFiles : Nat
  totalRecords : Nat
deriving DecidableEq

/-- The per-file outcome of the download+parse phase of one batch:
`{ url, records: GaiaRecord[] | null, error: string | null }`. -/
structure ProcessOutcome where
  url : String
  records : Option (List GaiaRecord)
  error : Option String
deriving DecidableEq

structure PipelineState where
  table : GaiaTable
  tracking : TrackingTable
  stats : PopulateStats
deriving DecidableEq

/-- The `allRecords` accumulation (coordinator.ts lines 299-305): rows of
every result whose parse succeeded, in order; failed results contribute
nothing. -/
def allRecordsOf (results : List ProcessOutcome) : List GaiaRecord :=
  results.foldl
    (fun acc r => match r.records with
      | some recs => acc ++ recs
      | none => acc)
    []

/-- One iteration of the accumulation loop's failure half (coordinator.ts
lines 302-324): a result with `records === null` and an error is marked
failed and counted. -/
def failStep (s : PipelineState) (r : ProcessOutcome) : PipelineState :=
  match r.records, r.error with
  | some _, _ => s
  | none, some _ =>
      { s with
        tracking := markFileFailed s.tracking r.url,
        stats := { s.stats with failedFiles := s.stats.failedFiles + 1 } }
  | none, none => s

/-- The failure half of the accumulation loop over the whole batch. -/
def markBatchFailures (st : PipelineState) (results : List ProcessOutcome) : PipelineState :=
  results.foldl failStep st

/-- One iteration of the completion loop (coordinator.ts lines 338-344):
after the bulk insert, every result with non-null `records` (the guard
`result.records.length >= 0` is always true) is marked completed. -/
def completedStep (s : PipelineState) (r : ProcessOutcome) : PipelineState :=
  match r.records with
  | some _ =>
      { s with
        tracking := markFileCompleted s.tracking r.url,
        stats := { s.stats with completedFiles := s.stats.completedFiles + 1 } }
  | none => s

/-- The completion loop over the whole batch. -/
def markBatchCompleted (st : PipelineState) (results : List ProcessOutcome) : PipelineState :=
  results.foldl completedStep st

/-- One iteration of the batch loop of `processBatchedPipeline`
(coordinator.ts lines 298-345), after the download/parse phase produced
`results`: accumulate rows and mark failures, then, only when at least
one row was accumulated, bulk-insert, add the returned count to
`totalRecords`, and mark the successfully parsed files completed. -/
def processBatchedPipelineStep (st : PipelineState) (results : List ProcessOutcome) :
    PipelineState :=
  let allRecords := allRecordsOf results
  let st1 := markBatchFailures st results
  if 0 < allRecords.length then
    let ins := insertGaiaRecords st1.table allRecords
    let st2 := { st1 with
                 table := ins.1,
                 stats := { st1.stats with totalRecords := st1.stats.totalRecords + ins.2 } }
    markBatchCompleted st2 results
  else st1

/-! ## Downloader (src/unnamed/part_002) -/

/-- `pat` is a leading segment of `l`. -/
def charsHaveLead (pat l : List Char) : Bool :=
  match pat, l with
  | [], _ => true
  | _ :: _, [] => false
  | p :: ps, c :: cs => p == c && charsHaveLead ps cs

/-- `pat` occurs contiguously somewhere in `l`. -/
def charsHaveSub (pat l : List Char) : Bool :=
  match l with
  | [] => charsHaveLead pat []
  | _ :: tl => charsHaveLead pat l || charsHaveSub pat tl

/-- `message.includes(pat)` on JavaScript strings: contiguous substring. -/
def hasSubstr (s pat : String) : Bool :=
  charsHaveSub pat.data s.data

/-- `message.toLowerCase()`, as a character list. -/
def lowerData (s : String) : List Char :=
  s.data.map Char.toLower

/-- `ParallelDownloader.isRetryableError` (part_002 lines 319-331):
case-insensitive substring match against the transient-failure markers. -/
def isRetryableError (msg : String) : Bool :=
  let m := lowerData msg
  charsHaveSub "connection".data m || charsHaveSub "timeout".data m ||
    charsHaveSub "network".data m || charsHaveSub "econnreset".data m ||
    charsHaveSub "enotfound".data m || charsHaveSub "socket".data m ||
    charsHaveSub "aborted".data m || charsHaveSub "body from connection".data m

/-- The outcome of one `fetch` attempt inside `streamDownload`: either a
response body (a stream, abstracted as `α`) or a thrown error message
(network failures, and the `HTTP <status>: <text>` / `No response body`
errors thrown on a non-ok or body-less response). -/
inductive FetchStep (α : Type) where
  | ok (body : α)
  | err (msg : String)

deriving instance DecidableEq for Except

/-- The retry loop of `ParallelDownloader.streamDownload` (part_002 lines
275-311).  `attempt` is the loop counter, `left = maxRetries - attempt`
the number of retries still allowed; `delays` logs each backoff wait
`retryDelay * 2 ^ (attempt - 1)` performed before a retry.  On a failed
attempt the loop exits with the error when the error is not retryable or
no retries remain (`attempt === maxRetries`). -/
def sdLoop {α : Type} (f : Nat → FetchStep α) (retryDelay : Nat) :
    Nat → Nat → List Nat → Except String α × List Nat
  | attempt, 0, delays =>
    -- `attempt === maxRetries`: a failure here exits with the error
    let delays' := if attempt = 0 then delays else delays ++ [retryDelay * 2 ^ (attempt - 1)]
    match f attempt with
    | .ok b => (.ok b, delays')
    | .err msg => (.error msg, delays')
  | attempt, l + 1, delays =>
    let delays' := if attempt = 0 then delays else delays ++ [retryDelay * 2 ^ (attempt - 1)]
    match f attempt with
    | .ok b => (.ok b, delays')
    | .err msg =>
      if isRetryableError msg then sdLoop f retryDelay (attempt + 1) l delays'
      else (.error msg, delays')

/-- `ParallelDownloader.streamDownload(url, maxRetries = 3, retryDelay =
1000)` (part_002 lines 268-314): result and the list of backoff delays
awaited, in order. -/
def streamDownload {α : Type} (f : Nat → FetchStep α) (maxRetries retryDelay : Nat) :
    Except String α × List Nat :=
  sdLoop f retryDelay 0 maxRetries []

inductive DLStatus where
  | pending
  | downloading
  | completed
  | failed
deriving DecidableEq

/-- Per-url entry of the downloader's progress map. -/
structure DLProgress where
  status : DLStatus
  bytesDownloaded : Nat
  totalBytes : Nat
  error : Option String
deriving DecidableEq

/-- An HTTP response as `downloadFile` consumes it: status line, the
`content-range` / `content-length` headers, and the body read loop's
behaviour — the chunks (byte lists) successfully read, and whether the
read ends with a thrown error instead of `done`. -/
structure HttpResponse where
  status : Nat
  statusText : String
  contentRange : Option String
  contentLength : Option Nat
  hasBody : Bool
  chunks : List (List Nat)
  readErr : Option String
deriving DecidableEq

/-- JavaScript `response.ok`: status in the inclusive range 200-299. -/
def respOk (r : HttpResponse) : Bool :=
  decide (200 ≤ r.status) && decide (r.status ≤ 299)

/-- The Content-Range validation of part_002 lines 148-162: a present
`content-range` header that does not contain the substring
`"<existingSize>-"` is a mismatch. -/
def contentRangeMismatch (resp : HttpResponse) (existingSize : Nat) : Bool :=
  match resp.contentRange with
  | some cr => !(hasSubstr cr (toString existingSize ++ "-"))
  | none => false

inductive DLOutcome where
  | success (filePath : String)
  | failure (error : String)
deriving DecidableEq

/-- The outcome of one pass over the body of `downloadFile`: either the
restart-from-scratch recursion (`return this.downloadFile(url)` after
deleting the partial file) or a final result. -/
inductive DLStep where
  | retryFromScratch
  | done (result : DLOutcome × Option (List Nat) × DLProgress)

/-- `const totalBytes = contentLength ? parseInt(contentLength) +
existingSize : 0` (part_002 lines 165-168). -/
def totalBytesOf (resp : HttpResponse) (existingSize : Nat) : Nat :=
  match resp.contentLength with
  | some n => n + existingSize
  | none => 0

/-- One pass over the body of `ParallelDownloader.downloadFile`
(part_002 lines 96-261).

The server is a function from the requested range offset (`some size`
when a non-empty partial file triggers a `Range: bytes=<size>-` header,
`none` otherwise) to the response; the local partial file is
`Option (List Nat)` (its byte content, `none` when absent).

Returns the `DownloadResult`, the file content, and the final
progress-map entry for the url.  Faithful quirks kept from the source:
an error thrown while reading the body is caught and only logged
(`resp.readErr` is ignored, part_002 lines 216-218), and the completed
progress entry records `bytesDownloaded = totalBytes` (lines 223-229)
regardless of how many bytes actually arrived. -/
def downloadAttempt (server : Option Nat → HttpResponse) (filePath : String)
    (fs : Option (List Nat)) : DLStep :=
  let existingSize := (fs.map List.length).getD 0
  let resp := server (if 0 < existingSize then some existingSize else none)
  if resp.status = 416 then
    -- delete the partial file and retry from scratch (lines 130-141)
    .retryFromScratch
  else if respOk resp = false then
    -- `throw new Error("HTTP ...")`, caught by the outer handler; the
    -- progress entry still holds the values set on entry (0 / 0)
    let msg := "HTTP " ++ toString resp.status ++ ": " ++ resp.statusText
    .done (.failure msg, fs, ⟨.failed, 0, 0, some msg⟩)
  else if 0 < existingSize ∧ resp.status = 206 ∧ contentRangeMismatch resp existingSize then
    -- server did not honor the range: delete and start over (lines 148-162)
    .retryFromScratch
  else
    -- body written to the file (append mode exactly when existingSize > 0);
    -- a read error aborts the loop but is swallowed after logging
    let fs' := if resp.hasBody then some ((fs.getD []) ++ resp.chunks.flatten) else fs
    .done (.success filePath, fs',
      ⟨.completed, totalBytesOf resp existingSize, totalBytesOf resp existingSize, none⟩)

/-- The restart recursion of `downloadFile`, fuel-bounded (the source
recursion is unbounded; every scenario proved below restarts at most
once, with the partial file deleted so the follow-up request carries no
Range header). -/
def downloadFileGo (server : Option Nat → HttpResponse) (filePath : String) :
    Nat → Option (List Nat) → DLOutcome × Option (List Nat) × DLProgress
  | 0, fs =>
    (.failure "out of fuel", fs, ⟨.failed, 0, 0, some "out of fuel"⟩)
  | fuel + 1, fs =>
    match downloadAttempt server filePath fs with
    | .retryFromScratch => downloadFileGo server filePath fuel none
    | .done result => result

def downloadFile (server : Option Nat → HttpResponse) (filePath : String)
    (fuel : Nat) (fs : Option (List Nat)) : DLOutcome × Option (List Nat) × DLProgress :=
  downloadFileGo server filePath fuel fs

/-! ## Streaming parser (src/src/utils.ts lines 14-84, src/unnamed/part_005
lines 15-115) -/

/-- The typed value a CSV cell is coerced to. -/
inductive CellValue where
  | str (s : String)
  | num (q : ℚ)
  | boolean (b : Bool)
  | null
deriving DecidableEq

/-- The two-plus columns always kept as opaque strings (part_005 line 21). -/
def stringColumns : List String := ["source_id", "solution_id", "designation"]

/-- The per-cell coercion of part_005 lines 72-90 (equivalently
`parseGaiaRecord` of utils.ts lines 458-485): identifier columns and
empty strings stay strings; case-insensitive null/false/true map to the
typed value; otherwise a numeric parse with string fallback.  JavaScript
`Number(value)` is an uninterpreted parameter `numParse` (`none` models
`NaN`). -/
def coerceCell (numParse : String → Option ℚ) (col v : String) : CellValue :=
  if stringColumns.contains col ∨ v = "" then .str v
  else
    let lower := lowerData v
    if lower = "null".data then .null
    else if lower = "false".data then .boolean false
    else if lower = "true".data then .boolean true
    else
      match numParse v with
      | some q => .num q
      | none => .str v

/-- A parsed record: the projected (column, value) pairs in header order. -/
abbrev ParsedRecord := List (String × CellValue)

/-- Projection of one data row onto the kept columns (part_005 lines
56-91): for each header index whose column is in the projection set,
coerce the cell at that index. -/
def projectRow (numParse : String → Option ℚ) (columnsToKeep headers values : List String) :
    ParsedRecord :=
  (List.range headers.length).filterMap fun i =>
    match headers[i]?, values[i]? with
    | some col, some v =>
        if columnsToKeep.contains col then some (col, coerceCell numParse col v) else none
    | _, _ => none

/-- The batching loop of `streamGzippedCSV` (part_005 lines 53-104): each
data row is projected and pushed onto `chunk`; a chunk is yielded once
`chunk.length >= chunkSize`, and a non-empty final chunk is yielded at
end of stream. -/
def chunkRows (numParse : String → Option ℚ) (columnsToKeep headers : List String)
    (chunkSize : Nat) : List (List String) → List ParsedRecord → List (List ParsedRecord)
  | [], chunk => if 0 < chunk.length then [chunk] else []
  | row :: rest, chunk =>
    let chunk' := chunk ++ [projectRow numParse columnsToKeep headers row]
    if chunkSize ≤ chunk'.length then chunk' :: chunkRows numParse columnsToKeep headers chunkSize rest []
    else chunkRows numParse columnsToKeep headers chunkSize rest chunk'

/-- `streamGzippedCSV(source, columnsToKeep, chunkSize)` applied to the
decompressed, comment-stripped, CSV-parsed row sequence: the first row is
the header (consumed, never emitted), the remaining rows are batched. -/
def streamGzippedCSV (numParse : String → Option ℚ) (columnsToKeep : List String)
    (chunkSize : Nat) (rows : List (List String)) : List (List ParsedRecord) :=
  match rows with
  | [] => []
  | header :: dataRows => chunkRows numParse columnsToKeep header chunkSize dataRows []

/-! ## Cone search (src/src/database.ts, lines 331-394)

JavaScript numbers are modelled as real numbers; `Math.PI`, `Math.sin`,
`Math.cos` and SQLite's `sin`, `cos`, `radians` become the exact real
functions. -/

noncomputable section ConeSearchModel

open Real

/-- `radians(x)`: degrees to radians, `x * π / 180`. -/
def radians (x : ℝ) : ℝ := x * Real.pi / 180

/-- The JavaScript remainder operator `x % y` on numbers (`y > 0`):
`x - y * trunc(x / y)`, keeping the sign of the dividend. -/
def jsMod (x y : ℝ) : ℝ :=
  if 0 ≤ x then x - y * (⌊x / y⌋ : ℤ) else x - y * (⌈x / y⌉ : ℤ)

/-- A cone-search call's arguments (all in degrees). -/
structure ConeQuery where
  ra : ℝ
  dec : ℝ
  radius : ℝ

/-- A stored catalog row's coordinates (degrees). -/
structure CatalogPoint where
  ra : ℝ
  dec : ℝ

/-- `const deltaRa = (radius * 180) / (Math.PI * Math.cos(decRad))`
(database.ts line 347).  Note that `radius` is in degrees here. -/
def deltaRa (q : ConeQuery) : ℝ :=
  q.radius * 180 / (Real.pi * Real.cos (radians q.dec))

/-- `const deltaDec = radius` (line 348). -/
def deltaDec (q : ConeQuery) : ℝ := q.radius

/-- `const decMin = Math.max(dec - deltaDec, -90)` (line 350). -/
def decMin (q : ConeQuery) : ℝ := max (q.dec - deltaDec q) (-90)

/-- `const decMax = Math.min(dec + deltaDec, 90)` (line 351). -/
def decMax (q : ConeQuery) : ℝ := min (q.dec + deltaDec q) 90

/-- `const raMin = (ra - deltaRa + 360) % 360` (line 352). -/
def raMin (q : ConeQuery) : ℝ := jsMod (q.ra - deltaRa q + 360) 360

/-- `const raMax = (ra + deltaRa) % 360` (line 353). -/
def raMax (q : ConeQuery) : ℝ := jsMod (q.ra + deltaRa q) 360

/-- The ra clause of the WHERE condition (lines 367-372): the union of
`BETWEEN raMin AND 360` and `BETWEEN 0 AND raMax` when the window wraps
(`raMin > raMax`), a single `BETWEEN raMin AND raMax` otherwise. -/
def raWindow (q : ConeQuery) (ra : ℝ) : Prop :=
  if raMax q < raMin q then
    (raMin q ≤ ra ∧ ra ≤ 360) ∨ (0 ≤ ra ∧ ra ≤ raMax q)
  else
    raMin q ≤ ra ∧ ra ≤ raMax q

/-- The exact spherical-cap clause (lines 385-388):
`sin(radians(dec)) * sinDec + cos(radians(dec)) * cosDec *
cos(radians(ra) - raRad) >= cosRadius`. -/
def capTest (q : ConeQuery) (p : CatalogPoint) : Prop :=
  Real.sin (radians p.dec) * Real.sin (radians q.dec) +
      Real.cos (radians p.dec) * Real.cos (radians q.dec) *
        Real.cos (radians p.ra - radians q.ra) ≥
    Real.cos (radians q.radius)

/-- The full WHERE clause of `coneSearch` with no magnitude range
(lines 365-388): dec between the dec bounds, ra in the ra window, and
the spherical-cap test. -/
def coneSelects (q : ConeQuery) (p : CatalogPoint) : Prop :=
  (decMin q ≤ p.dec ∧ p.dec ≤ decMax q) ∧ raWindow q p.ra ∧ capTest q p

/-- The rows returned by `GaiaDatabase.coneSearch(ra, dec, radius)` with
no magnitude range: exactly the stored rows satisfying the WHERE
clause. -/
def coneSearch (table : List CatalogPoint) (q : ConeQuery) : Set CatalogPoint :=
  { p | p ∈ table ∧ coneSelects q p }

/-- Modelled from the spec: the great-circle (angular) distance in
degrees between the query center and a catalog point, used to state what
the cone search is supposed to return. -/
def greatCircleDistDeg (q : ConeQuery) (p : CatalogPoint) : ℝ :=
  Real.arccos (Real.sin (radians p.dec) * Real.sin (radians q.dec) +
      Real.cos (radians p.dec) * Real.cos (radians q.dec) *
        Real.cos (radians p.ra - radians q.ra)) * 180 / Real.pi

/-- Modelled from the spec: the ra half-width formula the specification
ascribes to the prefilter, `Δra = radius / cos(dec)` in degrees. -/
def specDeltaRa (q : ConeQuery) : ℝ :=
  q.radius / Real.cos (radians q.dec)

end ConeSearchModel

/-! ## Concrete fixtures used by the witness theorems -/

def recA : GaiaRecord := ⟨"gaia-a", 10, 20, []⟩

def recB : GaiaRecord := ⟨"gaia-b", 30, -40, []⟩

def gaiaTableW : GaiaTable := [recA]

def trackW : TrackingTable :=
  [("url-a", FileStatus.completed), ("url-b", FileStatus.failed), ("url-c", FileStatus.pending)]

def resultsW : List ProcessOutcome :=
  [⟨"url-b", some [recB], none⟩, ⟨"url-c", none, some "connection reset"⟩]

def pstW : PipelineState :=
  ⟨[recA], [("url-b", FileStatus.pending), ("url-c", FileStatus.pending)], ⟨3, 1, 0, 5⟩⟩

def fAllW : Nat → FetchStep Nat := fun i => .err ("connection reset " ++ toString i)

def msgsW : Nat → String := fun i => "connection reset " ++ toString i

def f404W : Nat → FetchStep Nat := fun _ => .err "HTTP 404: Not Found"

def respFullW : HttpResponse := ⟨200, "OK", none, some 4, true, [[1, 2], [3, 4]], none⟩

def resp416W : HttpResponse := ⟨416, "Range Not Satisfiable", none, none, false, [], none⟩

def respMismatchW : HttpResponse :=
  ⟨206, "Partial Content", some "bytes 0-999/1000", some 998, true, [[7]], none⟩

def srv416W : Option Nat → HttpResponse := fun o =>
  match o with
  | some _ => resp416W
  | none => respFullW

def srvMismatchW : Option Nat → HttpResponse := fun o =>
  match o with
  | some _ => respMismatchW
  | none => respFullW

def respReadErrW : HttpResponse :=
  ⟨200, "OK", none, some 1000, true, [[1, 2, 3]], some "connection reset by peer"⟩

def srvReadErrW : Option Nat → HttpResponse := fun _ => respReadErrW

def numParseW : String → Option ℚ := fun _ => none

noncomputable def qBug : ConeQuery := ⟨0, 0, 4⟩

noncomputable def pBug : CatalogPoint := ⟨0, 0⟩

noncomputable def coneQ1 : ConeQuery := ⟨0, 0, 1⟩

/-! ## Helper lemmas: tracking table -/

theorem find?_append_of_isSome (t l : TrackingTable) (p : String × FileStatus → Bool)
    (h : (t.find? p).isSome) : (t ++ l).find? p = t.find? p := by
  induction t with
  | nil => simp [List.find?_nil] at h
  | cons e t ih =>
    by_cases he : p e = true
    · simp [List.find?_cons_of_pos _ he]
    · rw [List.cons_append, List.find?_cons_of_neg _ he, List.find?_cons_of_neg _ he]
      rw [List.find?_cons_of_neg _ he] at h
      exact ih h

theorem lookupStatus_isSome_of_eq_some (t : TrackingTable) (url : String) (s : FileStatus)
    (h : lookupStatus t url = some s) : ((t.find? (fun e => e.1 == url)).isSome) = true := by
  unfold lookupStatus at h
  cases hf : t.find? (fun e => e.1 == url) with
  | none => rw [hf] at h; simp at h
  | some e => simp [hf]

theorem lookupStatus_insertOrIgnorePending (t : TrackingTable) (v url : String)
    (s : FileStatus) (h : lookupStatus t url = some s) :
    lookupStatus (insertOrIgnorePending t v) url = some s := by
  unfold insertOrIgnorePending
  by_cases hv : (t.find? (fun e => e.1 == v)).isSome
  · rw [if_pos hv]; exact h
  · rw [if_neg hv]
    unfold lookupStatus at h ⊢
    rw [find?_append_of_isSome]
    · exact h
    · exact lookupStatus_isSome_of_eq_some t url s (by unfold lookupStatus; exact h)

theorem initializeTracking_preserves (urls : List String) (t : TrackingTable)
    (url : String) (s : FileStatus) (h : lookupStatus t url = some s) :
    lookupStatus (initializeTracking t urls false) url = some s := by
  induction urls generalizing t with
  | nil => exact h
  | cons u us ih =>
    unfold initializeTracking
    simp only [List.foldl_cons, Bool.false_eq_true, if_neg]
    exact ih (insertOrIgnorePending t u) (lookupStatus_insertOrIgnorePending t u url s h)

/-- C4: with a tracking table holding {A: completed, B: failed, C: pending},
re-seeding via `initializeTracking` (default, non-overwrite) leaves every
existing row's status unchanged, the urls re-attempted by the run
(`pendingUrlsOf`, coordinator.ts lines 72-75) are exactly [B, C], and a
url is excluded exactly when its tracking status is 'completed'. -/
theorem resume_reattempts_failed_and_pending (t : TrackingTable) (A B C : String)
    (hA : lookupStatus t A = some FileStatus.completed)
    (hB : lookupStatus t B = some FileStatus.failed)
    (hC : lookupStatus t C = some FileStatus.pending) :
    (∀ url s, lookupStatus t url = some s →
      lookupStatus (initializeTracking t [A, B, C] false) url = some s) ∧
    pendingUrlsOf (initializeTracking t [A, B, C] false) [A, B, C] = [B, C] ∧
    (∀ url, isFileProcessed (initializeTracking t [A, B, C] false) url = true ↔
      lookupStatus (initializeTracking t [A, B, C] false) url = some FileStatus.completed) := by
  refine ⟨fun url s h => initializeTracking_preserves _ t url s h, ?_, ?_⟩
  · have hA2 := initializeTracking_preserves [A, B, C] t A _ hA
    have hB2 := initializeTracking_preserves [A, B, C] t B _ hB
    have hC2 := initializeTracking_preserves [A, B, C] t C _ hC
    simp only [pendingUrlsOf, List.filter, isFileProcessed, hA2, hB2, hC2]
    rfl
  · intro url
    simp [isFileProcessed]

/-- Witness for C4 at a concrete three-row tracking table. -/
theorem resume_reattempts_failed_and_pending_witness :
    lookupStatus trackW "url-a" = some FileStatus.completed ∧
    lookupStatus trackW "url-b" = some FileStatus.failed ∧
    lookupStatus trackW "url-c" = some FileStatus.pending ∧
    pendingUrlsOf (initializeTracking trackW ["url-a", "url-b", "url-c"] false)
      ["url-a", "url-b", "url-c"] = ["url-b", "url-c"] :=
  ⟨by decide, by decide, by decide,
    (resume_reattempts_failed_and_pending trackW "url-a" "url-b" "url-c"
      (by decide) (by decide) (by decide)).2.1⟩

/-! ## Helper lemmas: batch inserts -/

theorem insertGaiaRecords_foldl (records : List GaiaRecord) :
    ∀ (t : GaiaTable) (n : Nat),
      records.foldl (fun acc r => (insertOrIgnoreGaia acc.1 r, acc.2 + 1)) (t, n) =
        (records.foldl insertOrIgnoreGaia t, n + records.length) := by
  induction records with
  | nil => intro t n; simp
  | cons r rs ih =>
    intro t n
    simp only [List.foldl_cons, List.length_cons, ih]
    simp only [Prod.mk.injEq, true_and]
    omega

theorem insertGaiaRecords_eq (t : GaiaTable) (records : List GaiaRecord) :
    insertGaiaRecords t records = (records.foldl insertOrIgnoreGaia t, records.length) := by
  unfold insertGaiaRecords
  rw [insertGaiaRecords_foldl records t 0, Nat.zero_add]

theorem hasSourceId_iff (t : GaiaTable) (s : String) :
    hasSourceId t s = true ↔ s ∈ t.map GaiaRecord.source_id := by
  simp [hasSourceId, List.any_eq_true, List.mem_map, beq_iff_eq]

theorem hasSourceId_insertOrIgnore_self (t : GaiaTable) (r : GaiaRecord) :
    hasSourceId (insertOrIgnoreGaia t r) r.source_id = true := by
  unfold insertOrIgnoreGaia
  by_cases h : hasSourceId t r.source_id = true
  · rw [if_pos h]; exact h
  · rw [if_neg h]
    simp [hasSourceId, List.any_append]

theorem hasSourceId_insertOrIgnore_mono (t : GaiaTable) (r : GaiaRecord) (s : String)
    (h : hasSourceId t s = true) : hasSourceId (insertOrIgnoreGaia t r) s = true := by
  unfold insertOrIgnoreGaia
  by_cases hr : hasSourceId t r.source_id = true
  · rw [if_pos hr]; exact h
  · rw [if_neg hr]
    simp only [hasSourceId, List.any_append, Bool.or_eq_true]
    exact Or.inl h

theorem hasSourceId_foldl_mono (l : List GaiaRecord) :
    ∀ (t : GaiaTable) (s : String), hasSourceId t s = true →
      hasSourceId (l.foldl insertOrIgnoreGaia t) s = true := by
  induction l with
  | nil => intro t s h; exact h
  | cons r rs ih =>
    intro t s h
    simp only [List.foldl_cons]
    exact ih _ s (hasSourceId_insertOrIgnore_mono t r s h)

theorem hasSourceId_foldl_of_mem (l : List GaiaRecord) :
    ∀ (t : GaiaTable) (r : GaiaRecord), r ∈ l →
      hasSourceId (l.foldl insertOrIgnoreGaia t) r.source_id = true := by
  induction l with
  | nil => intro t r h; simp at h
  | cons a rs ih =>
    intro t r h
    simp only [List.foldl_cons]
    rcases List.mem_cons.mp h with h1 | h2
    · subst h1
      exact hasSourceId_foldl_mono rs _ _ (hasSourceId_insertOrIgnore_self t r)
    · exact ih _ r h2

theorem foldl_insertOrIgnore_noop (l : List GaiaRecord) :
    ∀ (t : GaiaTable), (∀ r ∈ l, hasSourceId t r.source_id = true) →
      l.foldl insertOrIgnoreGaia t = t := by
  induction l with
  | nil => intro t _; rfl
  | cons a rs ih =>
    intro t h
    simp only [List.foldl_cons]
    have ha : insertOrIgnoreGaia t a = t := by
      unfold insertOrIgnoreGaia
      rw [if_pos (h a (List.mem_cons_self a rs))]
    rw [ha]
    exact ih t (fun r hr => h r (List.mem_cons_of_mem a hr))

theorem nodup_insertOrIgnore (t : GaiaTable) (r : GaiaRecord)
    (h : (t.map GaiaRecord.source_id).Nodup) :
    ((insertOrIgnoreGaia t r).map GaiaRecord.source_id).Nodup := by
  unfold insertOrIgnoreGaia
  by_cases hr : hasSourceId t r.source_id = true
  · rw [if_pos hr]; exact h
  · rw [if_neg hr]
    have hnm : r.source_id ∉ t.map GaiaRecord.source_id := fun hm =>
      hr ((hasSourceId_iff t r.source_id).mpr hm)
    simp only [List.map_append, List.map_cons, List.map_nil]
    refine List.Nodup.append h (List.nodup_singleton _) ?_
    intro a ha hb
    rw [List.mem_singleton] at hb
    exact hnm (hb ▸ ha)

theorem nodup_foldl_insertOrIgnore (l : List GaiaRecord) :
    ∀ (t : GaiaTable), (t.map GaiaRecord.source_id).Nodup →
      ((l.foldl insertOrIgnoreGaia t).map GaiaRecord.source_id).Nodup := by
  induction l with
  | nil => intro t h; exact h
  | cons a rs ih =>
    intro t h
    simp only [List.foldl_cons]
    exact ih _ (nodup_insertOrIgnore t a h)

/-- C3: `insertGaiaRecords` is idempotent — running the same batch twice
leaves the gaiadr3 table in the same state (in particular the same row
count) as running it once, re-inserting an already-present `source_id`
is a no-op rather than an error, and the table keeps `source_id` unique. -/
theorem insertGaiaRecords_idempotent (t : GaiaTable) (b : List GaiaRecord)
    (h : (t.map GaiaRecord.source_id).Nodup) :
    (insertGaiaRecords (insertGaiaRecords t b).1 b).1 = (insertGaiaRecords t b).1 ∧
    (insertGaiaRecords (insertGaiaRecords t b).1 b).1.length =
      (insertGaiaRecords t b).1.length ∧
    ((insertGaiaRecords t b).1.map GaiaRecord.source_id).Nodup := by
  have hkey : List.foldl insertOrIgnoreGaia (List.foldl insertOrIgnoreGaia t b) b =
      List.foldl insertOrIgnoreGaia t b :=
    foldl_insertOrIgnore_noop b _ (fun r hr => hasSourceId_foldl_of_mem b t r hr)
  have h1 : (insertGaiaRecords (insertGaiaRecords t b).1 b).1 = (insertGaiaRecords t b).1 := by
    rw [insertGaiaRecords_eq t b, insertGaiaRecords_eq _ b]
    exact hkey
  refine ⟨h1, by rw [h1], ?_⟩
  rw [insertGaiaRecords_eq]
  exact nodup_foldl_insertOrIgnore b t h

/-- Witness for C3: a table already holding `recA`, re-inserting a batch
containing `recA` and a fresh `recB`, twice. -/
theorem insertGaiaRecords_idempotent_witness :
    ((gaiaTableW.map GaiaRecord.source_id).Nodup) ∧
    (insertGaiaRecords (insertGaiaRecords gaiaTableW [recA, recB]).1 [recA, recB]).1 =
      (insertGaiaRecords gaiaTableW [recA, recB]).1 ∧
    ((insertGaiaRecords gaiaTableW [recA, recB]).1.map GaiaRecord.source_id).Nodup :=
  ⟨by decide,
    (insertGaiaRecords_idempotent gaiaTableW [recA, recB] (by decide)).1,
    (insertGaiaRecords_idempotent gaiaTableW [recA, recB] (by decide)).2.2⟩

/-! ## Helper lemmas: insert counts and coordinator statistics -/

theorem foldl_pair_count {β γ : Type} (g : γ → β → γ) (records : List β) :
    ∀ (t : γ) (n : Nat),
      (records.foldl (fun acc r => (g acc.1 r, acc.2 + 1)) (t, n)).2 = n + records.length := by
  induction records with
  | nil => intro t n; simp
  | cons r rs ih =>
    intro t n
    simp only [List.foldl_cons, List.length_cons]
    rw [ih]
    omega

theorem failStep_cases (st : PipelineState) (r : ProcessOutcome) :
    (failStep st r).table = st.table ∧
    (failStep st r).stats.totalRecords = st.stats.totalRecords := by
  unfold failStep
  cases hr : r.records with
  | some recs => exact ⟨rfl, rfl⟩
  | none =>
    cases he : r.error with
    | some e => exact ⟨rfl, rfl⟩
    | none => exact ⟨rfl, rfl⟩

theorem completedStep_cases (st : PipelineState) (r : ProcessOutcome) :
    (completedStep st r).table = st.table ∧
    (completedStep st r).stats.totalRecords = st.stats.totalRecords := by
  unfold completedStep
  cases hr : r.records with
  | some recs => exact ⟨rfl, rfl⟩
  | none => exact ⟨rfl, rfl⟩

theorem markBatchFailures_table (results : List ProcessOutcome) :
    ∀ (st : PipelineState), (markBatchFailures st results).table = st.table := by
  induction results with
  | nil => intro st; rfl
  | cons r rs ih =>
    intro st
    show (markBatchFailures (failStep st r) rs).table = st.table
    rw [ih, (failStep_cases st r).1]

theorem markBatchFailures_totalRecords (results : List ProcessOutcome) :
    ∀ (st : PipelineState),
      (markBatchFailures st results).stats.totalRecords = st.stats.totalRecords := by
  induction results with
  | nil => intro st; rfl
  | cons r rs ih =>
    intro st
    show (markBatchFailures (failStep st r) rs).stats.totalRecords = st.stats.totalRecords
    rw [ih, (failStep_cases st r).2]

theorem markBatchCompleted_totalRecords (results : List ProcessOutcome) :
    ∀ (st : PipelineState),
      (markBatchCompleted st results).stats.totalRecords = st.stats.totalRecords := by
  induction results with
  | nil => intro st; rfl
  | cons r rs ih =>
    intro st
    show (markBatchCompleted (completedStep st r) rs).stats.totalRecords =
      st.stats.totalRecords
    rw [ih, (completedStep_cases st r).2]

/-- C9: each `insert*Records` returns the size of its argument batch,
counting records whose primary id already exists (their insert is
ignored); the returned count can therefore exceed the number of rows
actually added (concrete instance: re-inserting `recA` into a table
already holding it returns 1 while the table does not grow); and the
coordinator adds exactly this returned count to its `totalRecords`
statistic (coordinator.ts lines 333-337). -/
theorem insertedCount_counts_ignored :
    (∀ (t : GaiaTable) (b : List GaiaRecord), (insertGaiaRecords t b).2 = b.length) ∧
    (∀ (t b : List TmassXmatchRecord), (insertTmassXmatchRecords t b).2 = b.length) ∧
    (∀ (t b : List TmassRecord), (insertTmassRecords t b).2 = b.length) ∧
    ((insertGaiaRecords gaiaTableW [recA]).2 = 1 ∧
      (insertGaiaRecords gaiaTableW [recA]).1.length = gaiaTableW.length) ∧
    (∀ (st : PipelineState) (results : List ProcessOutcome),
      0 < (allRecordsOf results).length →
        (processBatchedPipelineStep st results).stats.totalRecords =
          st.stats.totalRecords + (allRecordsOf results).length) := by
  have hcount : ∀ (t : GaiaTable) (b : List GaiaRecord), (insertGaiaRecords t b).2 = b.length := by
    intro t b
    unfold insertGaiaRecords
    rw [foldl_pair_count]
    omega
  refine ⟨hcount, ?_, ?_, ⟨by decide, by decide⟩, ?_⟩
  · intro t b
    unfold insertTmassXmatchRecords
    exact (foldl_pair_count
      (fun (tt : List TmassXmatchRecord) r =>
        if (tt.any fun x => x.gaiadr3_source_id == r.gaiadr3_source_id) = true then tt
        else tt ++ [r]) b t 0).trans (Nat.zero_add _)
  · intro t b
    unfold insertTmassRecords
    exact (foldl_pair_count
      (fun (tt : List TmassRecord) r =>
        if (tt.any fun x => x.gaiadr3_source_id == r.gaiadr3_source_id) = true then tt
        else tt ++ [r]) b t 0).trans (Nat.zero_add _)
  · intro st results hins
    unfold processBatchedPipelineStep
    simp only [if_pos hins]
    rw [markBatchCompleted_totalRecords]
    simp only []
    rw [hcount, markBatchFailures_totalRecords]

/-- Witness for C9's coordinator conjunct at a concrete state and batch. -/
theorem insertedCount_counts_ignored_witness :
    0 < (allRecordsOf resultsW).length ∧
    (processBatchedPipelineStep pstW resultsW).stats.totalRecords =
      pstW.stats.totalRecords + (allRecordsOf resultsW).length :=
  ⟨by decide, insertedCount_counts_ignored.2.2.2.2 pstW resultsW (by decide)⟩

/-! ## Helper lemmas: status updates and the per-batch marking loops -/

theorem lookupStatus_setStatus (t : TrackingTable) (v url : String) (s : FileStatus) :
    lookupStatus (t.map (fun e => if e.1 == v then (e.1, s) else e)) url =
      if url = v then (lookupStatus t url).map (fun _ => s) else lookupStatus t url := by
  induction t with
  | nil => by_cases h : url = v <;> simp [lookupStatus, h]
  | cons e t ih =>
    have hfst : ((if e.1 == v then (e.1, s) else e) : String × FileStatus).1 = e.1 := by
      by_cases hv : (e.1 == v) = true
      · rw [if_pos hv]
      · rw [if_neg hv]
    unfold lookupStatus
    rw [List.map_cons, List.find?_cons, List.find?_cons]
    simp only [hfst]
    by_cases he : e.1 = url
    · have hbe : (e.1 == url) = true := beq_iff_eq.mpr he
      simp only [hbe]
      by_cases huv : url = v
      · have hev : (e.1 == v) = true := beq_iff_eq.mpr (he.trans huv)
        simp [hev, huv]
      · have hev : (e.1 == v) = false :=
          beq_eq_false_iff_ne.mpr (fun hc => huv (he.symm.trans hc))
        simp [hev, huv]
    · have hbe : (e.1 == url) = false := beq_eq_false_iff_ne.mpr he
      simp only [hbe]
      exact ih

theorem lookupStatus_markFileCompleted (t : TrackingTable) (v url : String) :
    lookupStatus (markFileCompleted t v) url =
      if url = v then (lookupStatus t url).map (fun _ => FileStatus.completed)
      else lookupStatus t url :=
  lookupStatus_setStatus t v url FileStatus.completed

theorem lookupStatus_markFileFailed (t : TrackingTable) (v url : String) :
    lookupStatus (markFileFailed t v) url =
      if url = v then (lookupStatus t url).map (fun _ => FileStatus.failed)
      else lookupStatus t url :=
  lookupStatus_setStatus t v url FileStatus.failed

theorem isSome_lookupStatus_markFileCompleted (t : TrackingTable) (v url : String) :
    (lookupStatus (markFileCompleted t v) url).isSome = (lookupStatus t url).isSome := by
  rw [lookupStatus_markFileCompleted]
  by_cases h : url = v
  · rw [if_pos h]; cases lookupStatus t url <;> simp
  · rw [if_neg h]

theorem isSome_lookupStatus_markFileFailed (t : TrackingTable) (v url : String) :
    (lookupStatus (markFileFailed t v) url).isSome = (lookupStatus t url).isSome := by
  rw [lookupStatus_markFileFailed]
  by_cases h : url = v
  · rw [if_pos h]; cases lookupStatus t url <;> simp
  · rw [if_neg h]

theorem markBatchFailures_cons (st : PipelineState) (r : ProcessOutcome)
    (rs : List ProcessOutcome) :
    markBatchFailures st (r :: rs) = markBatchFailures (failStep st r) rs := rfl

theorem markBatchCompleted_cons (st : PipelineState) (r : ProcessOutcome)
    (rs : List ProcessOutcome) :
    markBatchCompleted st (r :: rs) = markBatchCompleted (completedStep st r) rs := rfl

theorem markBatchFailures_isSome (results : List ProcessOutcome) :
    ∀ (st : PipelineState) (u : String),
      (lookupStatus (markBatchFailures st results).tracking u).isSome =
        (lookupStatus st.tracking u).isSome := by
  induction results with
  | nil => intro st u; rfl
  | cons r rs ih =>
    intro st u
    rw [markBatchFailures_cons, ih]
    unfold failStep
    cases hr : r.records with
    | some recs => rfl
    | none =>
      cases he : r.error with
      | some e => exact isSome_lookupStatus_markFileFailed st.tracking r.url u
      | none => rfl

theorem markBatchFailures_lookup_failed (results : List ProcessOutcome) :
    ∀ (st : PipelineState) (u : String),
      lookupStatus st.tracking u = some FileStatus.failed →
        lookupStatus (markBatchFailures st results).tracking u = some FileStatus.failed := by
  induction results with
  | nil => intro st u h; exact h
  | cons r rs ih =>
    intro st u h
    rw [markBatchFailures_cons]
    refine ih (failStep st r) u ?_
    unfold failStep
    cases hr : r.records with
    | some recs => exact h
    | none =>
      cases he : r.error with
      | some e =>
        show lookupStatus (markFileFailed st.tracking r.url) u = some FileStatus.failed
        rw [lookupStatus_markFileFailed]
        by_cases hu : u = r.url
        · rw [if_pos hu, h]; rfl
        · rw [if_neg hu]; exact h
      | none => exact h

theorem markBatchFailures_lookup_failed_of_mem (results : List ProcessOutcome) :
    ∀ (st : PipelineState) (r0 : ProcessOutcome), r0 ∈ results → r0.records = none →
      r0.error.isSome → (lookupStatus st.tracking r0.url).isSome →
        lookupStatus (markBatchFailures st results).tracking r0.url =
          some FileStatus.failed := by
  induction results with
  | nil => intro st r0 h; simp at h
  | cons r rs ih =>
    intro st r0 hmem hrec herr hpres
    rw [markBatchFailures_cons]
    rcases List.mem_cons.mp hmem with h1 | h2
    · subst h1
      refine markBatchFailures_lookup_failed rs (failStep st r0) r0.url ?_
      unfold failStep
      rw [hrec]
      cases he : r0.error with
      | none => rw [he] at herr; simp at herr
      | some e =>
        show lookupStatus (markFileFailed st.tracking r0.url) r0.url = some FileStatus.failed
        rw [lookupStatus_markFileFailed, if_pos rfl]
        cases hl : lookupStatus st.tracking r0.url with
        | none => rw [hl] at hpres; simp at hpres
        | some s => rfl
    · refine ih (failStep st r) r0 h2 hrec herr ?_
      unfold failStep
      cases hr : r.records with
      | some recs => exact hpres
      | none =>
        cases he : r.error with
        | some e =>
          show (lookupStatus (markFileFailed st.tracking r.url) r0.url).isSome = true
          rw [isSome_lookupStatus_markFileFailed]
          exact hpres
        | none => exact hpres

theorem markBatchCompleted_lookup_completed (results : List ProcessOutcome) :
    ∀ (st : PipelineState) (u : String),
      lookupStatus st.tracking u = some FileStatus.completed →
        lookupStatus (markBatchCompleted st results).tracking u =
          some FileStatus.completed := by
  induction results with
  | nil => intro st u h; exact h
  | cons r rs ih =>
    intro st u h
    rw [markBatchCompleted_cons]
    refine ih (completedStep st r) u ?_
    unfold completedStep
    cases hr : r.records with
    | some recs =>
      show lookupStatus (markFileCompleted st.tracking r.url) u = some FileStatus.completed
      rw [lookupStatus_markFileCompleted]
      by_cases hu : u = r.url
      · rw [if_pos hu, h]; rfl
      · rw [if_neg hu]; exact h
    | none => exact h

theorem markBatchCompleted_lookup_completed_of_mem (results : List ProcessOutcome) :
    ∀ (st : PipelineState) (r0 : ProcessOutcome), r0 ∈ results → r0.records.isSome →
      (lookupStatus st.tracking r0.url).isSome →
        lookupStatus (markBatchCompleted st results).tracking r0.url =
          some FileStatus.completed := by
  induction results with
  | nil => intro st r0 h; simp at h
  | cons r rs ih =>
    intro st r0 hmem hrec hpres
    rw [markBatchCompleted_cons]
    rcases List.mem_cons.mp hmem with h1 | h2
    · subst h1
      refine markBatchCompleted_lookup_completed rs (completedStep st r0) r0.url ?_
      unfold completedStep
      cases hr : r0.records with
      | none => rw [hr] at hrec; simp at hrec
      | some recs =>
        show lookupStatus (markFileCompleted st.tracking r0.url) r0.url =
          some FileStatus.completed
        rw [lookupStatus_markFileCompleted, if_pos rfl]
        cases hl : lookupStatus st.tracking r0.url with
        | none => rw [hl] at hpres; simp at hpres
        | some s => rfl
    · refine ih (completedStep st r) r0 h2 hrec ?_
      unfold completedStep
      cases hr : r.records with
      | some recs =>
        show (lookupStatus (markFileCompleted st.tracking r.url) r0.url).isSome = true
        rw [isSome_lookupStatus_markFileCompleted]
        exact hpres
      | none => exact hpres

theorem markBatchCompleted_lookup_of_no_success (results : List ProcessOutcome) :
    ∀ (st : PipelineState) (u : String),
      (∀ r ∈ results, r.records.isSome → r.url ≠ u) →
        lookupStatus (markBatchCompleted st results).tracking u =
          lookupStatus st.tracking u := by
  induction results with
  | nil => intro st u _; rfl
  | cons r rs ih =>
    intro st u h
    rw [markBatchCompleted_cons, ih _ u (fun x hx => h x (List.mem_cons_of_mem r hx))]
    unfold completedStep
    cases hr : r.records with
    | some recs =>
      show lookupStatus (markFileCompleted st.tracking r.url) u = lookupStatus st.tracking u
      rw [lookupStatus_markFileCompleted]
      have hne : u ≠ r.url :=
        fun hc => h r (List.mem_cons_self r rs) (by rw [hr]; rfl) hc.symm
      rw [if_neg hne]
    | none => rfl

theorem allRecordsOf_eq (results : List ProcessOutcome) :
    allRecordsOf results = (results.filterMap ProcessOutcome.records).flatten := by
  have haux : ∀ (acc : List GaiaRecord),
      results.foldl
        (fun acc r => match r.records with
          | some recs => acc ++ recs
          | none => acc) acc =
      acc ++ (results.filterMap ProcessOutcome.records).flatten := by
    induction results with
    | nil => intro acc; simp
    | cons r rs ih =>
      intro acc
      simp only [List.foldl_cons]
      cases hr : r.records with
      | some recs =>
        rw [ih]
        simp [List.filterMap_cons, hr, List.append_assoc]
      | none =>
        rw [ih]
        simp [List.filterMap_cons, hr]
  unfold allRecordsOf
  rw [haux, List.nil_append]

/-- C5: within one coordinator batch whose urls are distinct and tracked,
once the batch insert happens (at least one accumulated row), every file
whose parse succeeded — zero-row results included — ends marked
completed, every file whose download or parse failed ends marked failed,
and the bulk insert's argument is exactly the concatenation of the
successfully parsed files' records (failed files contribute no rows). -/
theorem batch_marks_completed_and_failed (st : PipelineState)
    (results : List ProcessOutcome)
    (hnd : (results.map ProcessOutcome.url).Nodup)
    (hpres : ∀ r ∈ results, (lookupStatus st.tracking r.url).isSome)
    (hins : 0 < (allRecordsOf results).length) :
    (∀ r ∈ results, r.records.isSome →
      lookupStatus (processBatchedPipelineStep st results).tracking r.url =
        some FileStatus.completed) ∧
    (∀ r ∈ results, r.records = none → r.error.isSome →
      lookupStatus (processBatchedPipelineStep st results).tracking r.url =
        some FileStatus.failed) ∧
    allRecordsOf results = (results.filterMap ProcessOutcome.records).flatten := by
  have hstep : processBatchedPipelineStep st results =
      markBatchCompleted
        { markBatchFailures st results with
          table := (insertGaiaRecords (markBatchFailures st results).table
            (allRecordsOf results)).1,
          stats := { (markBatchFailures st results).stats with
            totalRecords := (markBatchFailures st results).stats.totalRecords +
              (insertGaiaRecords (markBatchFailures st results).table
                (allRecordsOf results)).2 } }
        results := by
    unfold processBatchedPipelineStep
    rw [if_pos hins]
  refine ⟨?_, ?_, allRecordsOf_eq results⟩
  · intro r hr hrec
    rw [hstep]
    refine markBatchCompleted_lookup_completed_of_mem results _ r hr hrec ?_
    show (lookupStatus (markBatchFailures st results).tracking r.url).isSome = true
    rw [markBatchFailures_isSome]
    exact hpres r hr
  · intro r hr hrec herr
    rw [hstep]
    have hnosucc : ∀ x ∈ results, x.records.isSome → x.url ≠ r.url := by
      intro x hx hxrec hc
      have hxr : x = r := List.inj_on_of_nodup_map hnd hx hr hc
      rw [hxr, hrec] at hxrec
      simp at hxrec
    rw [markBatchCompleted_lookup_of_no_success results _ r.url hnosucc]
    show lookupStatus (markBatchFailures st results).tracking r.url = some FileStatus.failed
    exact markBatchFailures_lookup_failed_of_mem results st r hr hrec herr (hpres r hr)

/-- Witness for C5: a two-file batch — one parse success with one row,
one failed download — over a tracking table holding both urls. -/
theorem batch_marks_completed_and_failed_witness :
    ((resultsW.map ProcessOutcome.url).Nodup) ∧
    (∀ r ∈ resultsW, (lookupStatus pstW.tracking r.url).isSome) ∧
    0 < (allRecordsOf resultsW).length ∧
    lookupStatus (processBatchedPipelineStep pstW resultsW).tracking "url-b" =
      some FileStatus.completed ∧
    lookupStatus (processBatchedPipelineStep pstW resultsW).tracking "url-c" =
      some FileStatus.failed :=
  ⟨by decide, by decide, by decide,
    (batch_marks_completed_and_failed pstW resultsW (by decide) (by decide) (by decide)).1
      ⟨"url-b", some [recB], none⟩ (by decide) (by decide),
    (batch_marks_completed_and_failed pstW resultsW (by decide) (by decide) (by decide)).2.1
      ⟨"url-c", none, some "connection reset"⟩ (by decide) (by decide) (by decide)⟩

/-! ## Helper lemmas: streamDownload retry loop -/

theorem sdLoop_exhaust {α : Type} (f : Nat → FetchStep α) (d : Nat) (msgs : Nat → String) :
    ∀ (left a : Nat) (delays : List Nat),
      (∀ i, a + 1 ≤ i → i ≤ a + 1 + left → f i = .err (msgs i)) →
      (∀ i, a + 1 ≤ i → i ≤ a + 1 + left → isRetryableError (msgs i) = true) →
      sdLoop f d (a + 1) left delays =
        (.error (msgs (a + 1 + left)),
          delays ++ (List.range' a (left + 1)).map (fun i => d * 2 ^ i)) := by
  intro left
  induction left with
  | zero =>
    intro a delays hf _
    unfold sdLoop
    rw [hf (a + 1) (le_refl _) (by omega)]
    simp [List.range'_one]
  | succ l ih =>
    intro a delays hf hr
    have hfa : f (a + 1) = .err (msgs (a + 1)) := hf (a + 1) (le_refl _) (by omega)
    have hra : isRetryableError (msgs (a + 1)) = true := hr (a + 1) (le_refl _) (by omega)
    have hind := ih (a + 1) (delays ++ [d * 2 ^ a])
      (fun i h1 h2 => hf i (by omega) (by omega))
      (fun i h1 h2 => hr i (by omega) (by omega))
    unfold sdLoop
    rw [hfa]
    simp only [Nat.add_sub_cancel, if_neg (Nat.succ_ne_zero a), hra, if_pos]
    rw [hind]
    have hidx : a + 1 + 1 + l = a + 1 + (l + 1) := by omega
    rw [hidx, List.range'_succ]
    simp only [List.append_assoc, List.singleton_append, List.map_cons]
    conv_rhs => rw [List.range'_succ]
    simp
    rw [List.range'_succ, List.map_cons]

/-- C6: `streamDownload` retries an attempt whose error is retryable,
waiting `retryDelay * 2 ^ k` before the (k+1)-th retry (exponential
backoff doubling from the base delay), stops after `maxRetries` retries
surfacing the error of the final attempt, and fails immediately — with
no backoff wait — on a non-retryable error such as `HTTP 404`. -/
theorem streamDownload_policy {α : Type} (f : Nat → FetchStep α) (m d : Nat)
    (msgs : Nat → String) :
    ((∀ i, i ≤ m → f i = .err (msgs i)) →
      (∀ i, i ≤ m → isRetryableError (msgs i) = true) →
      streamDownload f m d =
        (.error (msgs m), (List.range m).map (fun i => d * 2 ^ i))) ∧
    (∀ msg, f 0 = .err msg → isRetryableError msg = false →
      streamDownload f m d = (.error msg, [])) := by
  constructor
  · intro hf hr
    unfold streamDownload
    cases m with
    | zero =>
      unfold sdLoop
      rw [hf 0 (le_refl _)]
      simp
    | succ l =>
      have hfa : f 0 = .err (msgs 0) := hf 0 (by omega)
      have hra : isRetryableError (msgs 0) = true := hr 0 (by omega)
      unfold sdLoop
      rw [hfa]
      simp only [hra, eq_self_iff_true, if_true]
      rw [sdLoop_exhaust f d msgs l 0 []
        (fun i h1 h2 => hf i (by omega)) (fun i h1 h2 => hr i (by omega))]
      rw [List.range_eq_range']
      simp [Nat.add_comm]
  · intro msg hf hnr
    unfold streamDownload
    cases m with
    | zero =>
      unfold sdLoop
      rw [hf]
      simp
    | succ l =>
      unfold sdLoop
      rw [hf]
      simp [hnr]

/-- Witness for C6: four attempts all failing with a retryable
connection error yield the last attempt's error after backoff waits of
1000, 2000 and 4000 ms; a 404 fails immediately with no waits. -/
theorem streamDownload_policy_witness :
    streamDownload fAllW 3 1000 = (.error "connection reset 3", [1000, 2000, 4000]) ∧
    streamDownload f404W 3 1000 = (.error "HTTP 404: Not Found", []) := by
  constructor
  · have h := (streamDownload_policy fAllW 3 1000 msgsW).1
      (fun i _ => rfl) (by intro i hi; interval_cases i <;> decide)
    rw [h]
    decide
  · exact (streamDownload_policy f404W 3 1000 msgsW).2 "HTTP 404: Not Found" rfl (by decide)

/-! ## Helper lemmas: downloadFile -/

theorem downloadFileGo_succ (server : Option Nat → HttpResponse) (filePath : String)
    (fuel : Nat) (fs : Option (List Nat)) :
    downloadFileGo server filePath (fuel + 1) fs =
      match downloadAttempt server filePath fs with
      | .retryFromScratch => downloadFileGo server filePath fuel none
      | .done result => result := rfl

theorem totalBytesOf_zero (resp : HttpResponse) :
    totalBytesOf resp 0 = resp.contentLength.getD 0 := by
  unfold totalBytesOf
  cases resp.contentLength <;> simp

/-- A fresh (no partial file) attempt against an ok, non-416 response
with a body ends with a success result, the body chunks as the file
content, and a completed progress entry claiming `totalBytes` bytes. -/
theorem downloadAttempt_fresh (server : Option Nat → HttpResponse) (filePath : String)
    (hok : respOk (server none) = true) (h416 : (server none).status ≠ 416)
    (hbody : (server none).hasBody = true) :
    downloadAttempt server filePath none =
      .done (.success filePath, some (server none).chunks.flatten,
        ⟨.completed, (server none).contentLength.getD 0,
          (server none).contentLength.getD 0, none⟩) := by
  unfold downloadAttempt
  simp [h416, hok, hbody, totalBytesOf_zero]

/-- A ranged attempt answered with 416, or with a 206 whose
Content-Range does not match the requested offset, restarts from
scratch. -/
theorem downloadAttempt_ranged_bad (server : Option Nat → HttpResponse) (filePath : String)
    (partialContent : List Nat) (hS : 0 < partialContent.length)
    (hbad : (server (some partialContent.length)).status = 416 ∨
      ((server (some partialContent.length)).status = 206 ∧
        contentRangeMismatch (server (some partialContent.length))
          partialContent.length = true)) :
    downloadAttempt server filePath (some partialContent) = .retryFromScratch := by
  unfold downloadAttempt
  have hsz : (Option.map List.length (some partialContent)).getD 0 = partialContent.length :=
    rfl
  rw [hsz]
  simp only []
  rw [if_pos hS]
  rcases hbad with h1 | ⟨h206, hmis⟩
  · rw [if_pos h1]
  · have h416 : ¬((server (some partialContent.length)).status = 416) := by
      rw [h206]; omega
    have hok : respOk (server (some partialContent.length)) = true := by
      unfold respOk
      rw [h206]
      decide
    rw [if_neg h416, if_neg (by rw [hok]; simp), if_pos ⟨hS, h206, hmis⟩]

/-- C7: when a ranged request for a partial file of size S is answered
with 416, or with a 206 whose Content-Range does not match offset S, the
partial file is discarded and the download restarts from byte zero: the
follow-up request carries no Range header, the final file content is
exactly the full response body (the stale partial bytes are gone), and
the overall outcome is a success result. -/
theorem downloadFile_range_restart (server : Option Nat → HttpResponse)
    (filePath : String) (partialContent : List Nat) (k : Nat)
    (hS : 0 < partialContent.length)
    (hbad : (server (some partialContent.length)).status = 416 ∨
      ((server (some partialContent.length)).status = 206 ∧
        contentRangeMismatch (server (some partialContent.length))
          partialContent.length = true))
    (hok : respOk (server none) = true)
    (h416 : (server none).status ≠ 416)
    (hbody : (server none).hasBody = true) :
    downloadFile server filePath (k + 2) (some partialContent) =
      (.success filePath, some (server none).chunks.flatten,
        ⟨.completed, (server none).contentLength.getD 0,
          (server none).contentLength.getD 0, none⟩) := by
  unfold downloadFile
  rw [downloadFileGo_succ, downloadAttempt_ranged_bad server filePath partialContent hS hbad]
  rw [downloadFileGo_succ, downloadAttempt_fresh server filePath hok h416 hbody]

/-- Witness for C7: both restart triggers at concrete servers — one
answering the ranged request with 416, one with a 206 whose
Content-Range `bytes 0-999/1000` does not contain `2-` (the offset of
the two stale bytes) — each followed by a clean 200 with body
`[1,2] ++ [3,4]`. -/
theorem downloadFile_range_restart_witness :
    downloadFile srv416W "f.csv.gz" 2 (some [9, 9]) =
      (.success "f.csv.gz", some [1, 2, 3, 4], ⟨.completed, 4, 4, none⟩) ∧
    downloadFile srvMismatchW "f.csv.gz" 2 (some [9, 9]) =
      (.success "f.csv.gz", some [1, 2, 3, 4], ⟨.completed, 4, 4, none⟩) := by
  constructor
  · have h := downloadFile_range_restart srv416W "f.csv.gz" [9, 9] 0
      (by decide) (Or.inl (by decide)) (by decide) (by decide) (by decide)
    rw [h]
    decide
  · have h := downloadFile_range_restart srvMismatchW "f.csv.gz" [9, 9] 0
      (by decide) (Or.inr ⟨by decide, by decide⟩) (by decide) (by decide) (by decide)
    rw [h]
    decide

/-- C10: in the part_002 downloader, an error thrown while reading the
response body is caught and only logged: a fresh download whose body
read ends in an error (`readErr`) still returns a success result with
the file path, stores only the chunks read before the error (the
truncated file), and records a completed progress entry with
`bytesDownloaded = totalBytes`. -/
theorem downloadFile_swallows_read_error (server : Option Nat → HttpResponse)
    (filePath : String) (k : Nat)
    (_hre : (server none).readErr.isSome) (hok : respOk (server none) = true)
    (h416 : (server none).status ≠ 416) (hbody : (server none).hasBody = true) :
    downloadFile server filePath (k + 1) none =
      (.success filePath, some (server none).chunks.flatten,
        ⟨.completed, (server none).contentLength.getD 0,
          (server none).contentLength.getD 0, none⟩) := by
  unfold downloadFile
  rw [downloadFileGo_succ, downloadAttempt_fresh server filePath hok h416 hbody]

/-- Witness for C10: a 200 response of 1000 advertised bytes whose body
read yields [1,2,3] and then throws — the result is success, the stored
file holds the three truncated bytes, and the progress entry claims
1000/1000 bytes and status completed. -/
theorem downloadFile_swallows_read_error_witness :
    downloadFile srvReadErrW "f.csv.gz" 1 none =
      (.success "f.csv.gz", some [1, 2, 3], ⟨.completed, 1000, 1000, none⟩) := by
  have h := downloadFile_swallows_read_error srvReadErrW "f.csv.gz" 0
    (by decide) (by decide) (by decide) (by decide)
  rw [h]
  decide

/-! ## Helper lemmas: streaming-parser batching -/

theorem chunkRows_nil (numParse : String → Option ℚ) (columnsToKeep headers : List String)
    (chunkSize : Nat) (chunk : List ParsedRecord) :
    chunkRows numParse columnsToKeep headers chunkSize [] chunk =
      if 0 < chunk.length then [chunk] else [] := rfl

theorem chunkRows_cons (numParse : String → Option ℚ) (columnsToKeep headers : List String)
    (chunkSize : Nat) (r : List String) (rest : List (List String))
    (chunk : List ParsedRecord) :
    chunkRows numParse columnsToKeep headers chunkSize (r :: rest) chunk =
      (if chunkSize ≤ (chunk ++ [projectRow numParse columnsToKeep headers r]).length then
        (chunk ++ [projectRow numParse columnsToKeep headers r]) ::
          chunkRows numParse columnsToKeep headers chunkSize rest []
      else
        chunkRows numParse columnsToKeep headers chunkSize rest
          (chunk ++ [projectRow numParse columnsToKeep headers r])) := rfl

theorem chunkRows_fill (numParse : String → Option ℚ) (columnsToKeep headers : List String)
    (chunkSize : Nat) :
    ∀ (rows rest : List (List String)) (chunk : List ParsedRecord),
      chunk.length + rows.length = chunkSize → rows ≠ [] →
      chunkRows numParse columnsToKeep headers chunkSize (rows ++ rest) chunk =
        (chunk ++ rows.map (projectRow numParse columnsToKeep headers)) ::
          chunkRows numParse columnsToKeep headers chunkSize rest [] := by
  intro rows
  induction rows with
  | nil => intro rest chunk _ hne; exact absurd rfl hne
  | cons r rs ih =>
    intro rest chunk hlen _
    cases rs with
    | nil =>
      -- last row of the filling segment: the chunk reaches chunkSize and is yielded
      have hfull : chunkSize ≤ (chunk ++ [projectRow numParse columnsToKeep headers r]).length := by
        simp only [List.length_append, List.length_cons, List.length_nil] at hlen ⊢
        omega
      rw [List.singleton_append, chunkRows_cons, if_pos hfull]
      simp
    | cons r2 rs2 =>
      have hnotfull :
          ¬(chunkSize ≤ (chunk ++ [projectRow numParse columnsToKeep headers r]).length) := by
        simp only [List.length_append, List.length_cons, List.length_nil] at hlen ⊢
        omega
      rw [List.cons_append, chunkRows_cons, if_neg hnotfull]
      rw [ih rest (chunk ++ [projectRow numParse columnsToKeep headers r])
        (by simp only [List.length_append, List.length_cons, List.length_nil] at hlen ⊢; omega)
        (by simp)]
      simp [List.append_assoc]

theorem chunkRows_single (numParse : String → Option ℚ) (columnsToKeep headers : List String)
    (chunkSize : Nat) (r : List String) :
    chunkRows numParse columnsToKeep headers chunkSize [r] [] =
      [[projectRow numParse columnsToKeep headers r]] := by
  rw [chunkRows_cons]
  by_cases h : chunkSize ≤ (([] : List ParsedRecord) ++
      [projectRow numParse columnsToKeep headers r]).length
  · rw [if_pos h, chunkRows_nil]
    simp
  · rw [if_neg h, chunkRows_nil]
    simp

theorem streamGzippedCSV_cons (numParse : String → Option ℚ) (columnsToKeep : List String)
    (chunkSize : Nat) (header : List String) (dataRows : List (List String)) :
    streamGzippedCSV numParse columnsToKeep chunkSize (header :: dataRows) =
      chunkRows numParse columnsToKeep header chunkSize dataRows [] := rfl

/-- C8: `streamGzippedCSV` consumes the header row and batches the data
rows: with exactly `chunkSize + 1` data rows it yields exactly two
batches of sizes `chunkSize` and `1`, in that order, and with zero data
rows it yields zero batches. -/
theorem streamGzippedCSV_batch_boundaries (numParse : String → Option ℚ)
    (columnsToKeep header : List String) (chunkSize : Nat)
    (dataRows : List (List String)) (hpos : 0 < chunkSize) :
    (dataRows.length = chunkSize + 1 →
      (streamGzippedCSV numParse columnsToKeep chunkSize (header :: dataRows)).map
        List.length = [chunkSize, 1]) ∧
    (dataRows = [] →
      streamGzippedCSV numParse columnsToKeep chunkSize (header :: dataRows) = []) := by
  constructor
  · intro hlen
    have hne : dataRows ≠ [] := by
      intro hc
      rw [hc] at hlen
      simp at hlen
    have hsplit : dataRows = dataRows.dropLast ++ [dataRows.getLast hne] :=
      (List.dropLast_append_getLast hne).symm
    have hdlen : dataRows.dropLast.length = chunkSize := by
      rw [List.length_dropLast, hlen]
      omega
    have hdne : dataRows.dropLast ≠ [] := by
      intro hc
      rw [hc] at hdlen
      simp at hdlen
      omega
    rw [streamGzippedCSV_cons]
    conv_lhs => rw [hsplit]
    rw [chunkRows_fill numParse columnsToKeep header chunkSize dataRows.dropLast
      [dataRows.getLast hne] [] (by simpa using hdlen) hdne]
    rw [chunkRows_single numParse columnsToKeep header chunkSize]
    simp [hdlen]
    omega
  · intro hnil
    rw [hnil, streamGzippedCSV_cons, chunkRows_nil]
    simp

/-- Witness for C8 at chunkSize 2: three data rows yield batches of
sizes [2, 1]; a header-only input yields no batches. -/
theorem streamGzippedCSV_batch_boundaries_witness :
    (0 : Nat) < 2 ∧
    (streamGzippedCSV numParseW ["a"] 2 [["a"], ["1"], ["2"], ["3"]]).map List.length =
      [2, 1] ∧
    streamGzippedCSV numParseW ["a"] 2 [["a"]] = [] :=
  ⟨by decide,
    (streamGzippedCSV_batch_boundaries numParseW ["a"] ["a"] 2 [["1"], ["2"], ["3"]]
      (by decide)).1 (by decide),
    (streamGzippedCSV_batch_boundaries numParseW ["a"] ["a"] 2 [] (by decide)).2 rfl⟩

/-! ## Helper lemmas: cone-search prefilter arithmetic -/

theorem jsMod_eq_self (x y : ℝ) (h0 : 0 ≤ x) (hxy : x < y) : jsMod x y = x := by
  unfold jsMod
  rw [if_pos h0]
  have hy : 0 < y := lt_of_le_of_lt h0 hxy
  have hfloor : ⌊x / y⌋ = 0 := by
    rw [Int.floor_eq_zero_iff, Set.mem_Ico]
    exact ⟨div_nonneg h0 hy.le, (div_lt_one hy).mpr hxy⟩
  rw [hfloor]
  simp

theorem deltaRa_qBug : deltaRa qBug = 720 / Real.pi := by
  unfold deltaRa qBug radians
  simp [Real.cos_zero]
  norm_num

theorem raMin_qBug : raMin qBug = 360 - 720 / Real.pi := by
  have hπ3 : (3 : ℝ) < Real.pi := Real.pi_gt_three
  unfold raMin
  rw [deltaRa_qBug]
  have harg : qBug.ra - 720 / Real.pi + 360 = 360 - 720 / Real.pi := by
    unfold qBug
    ring
  rw [harg]
  apply jsMod_eq_self
  · have h1 : 720 / Real.pi ≤ 360 := by
      rw [div_le_iff₀ (by linarith)]
      nlinarith
    linarith
  · have h2 : 0 < 720 / Real.pi := by positivity
    linarith

theorem raMax_qBug : raMax qBug = 720 / Real.pi := by
  have hπ3 : (3 : ℝ) < Real.pi := Real.pi_gt_three
  unfold raMax
  rw [deltaRa_qBug]
  have harg : qBug.ra + 720 / Real.pi = 720 / Real.pi := by
    unfold qBug
    ring
  rw [harg]
  apply jsMod_eq_self
  · positivity
  · rw [div_lt_iff₀ (by linarith)]
    nlinarith

/-- C1: the cone search is not complete — a catalog holding exactly the
query center itself, at great-circle distance 0 of the center, is missed
by `coneSearch(0, 0, 4)`: the unit slip in the bounding box
(`deltaRa = radius * 180 / (π * cos dec)` with `radius` already in
degrees) widens the ra half-window to 720/π ≈ 229°, the wraparound
branch is therefore not taken (raMin ≈ 130.8 < raMax ≈ 229.2), and the
window [130.8°, 229.2°] excludes ra = 0. -/
theorem coneSearch_misses_center :
    greatCircleDistDeg qBug pBug = 0 ∧ (0 : ℝ) ≤ qBug.radius ∧
    pBug ∉ coneSearch [pBug] qBug := by
  have hπ3 : (3 : ℝ) < Real.pi := Real.pi_gt_three
  have hπ4 : Real.pi < 3.15 := Real.pi_lt_d2
  refine ⟨?_, ?_, ?_⟩
  · unfold greatCircleDistDeg qBug pBug radians
    simp [Real.sin_zero, Real.cos_zero, Real.arccos_one]
  · unfold qBug
    norm_num
  · intro hmem
    obtain ⟨-, hsel⟩ := hmem
    obtain ⟨-, hwin, -⟩ := hsel
    have hu1 : 720 / Real.pi < 240 := by
      rw [div_lt_iff₀ (by linarith)]
      nlinarith
    have hu2 : 180 < 720 / Real.pi := by
      rw [lt_div_iff₀ (by linarith)]
      nlinarith
    have hcond : ¬(raMax qBug < raMin qBug) := by
      rw [raMin_qBug, raMax_qBug]
      intro hc
      linarith
    unfold raWindow at hwin
    rw [if_neg hcond] at hwin
    obtain ⟨hlo, -⟩ := hwin
    rw [raMin_qBug] at hlo
    have hra : pBug.ra = 0 := rfl
    rw [hra] at hlo
    linarith

/-- C2 (counterexample): the prefilter half-width is not the spec's
`radius / cos(dec)` — at the query (ra 0, dec 0, radius 4°) the code
computes 720/π ≈ 229.2°, not 4°. -/
theorem deltaRa_ne_specDeltaRa : deltaRa qBug ≠ specDeltaRa qBug := by
  have hπ3 : (3 : ℝ) < Real.pi := Real.pi_gt_three
  have hπ4 : Real.pi < 3.15 := Real.pi_lt_d2
  rw [deltaRa_qBug]
  unfold specDeltaRa qBug radians
  simp [Real.cos_zero]
  intro hc
  rw [div_eq_iff (by linarith : Real.pi ≠ 0)] at hc
  linarith

/-- C2 (amended): `coneSearch` computes its rectangular prefilter with
the declination-dependent ra half-width
`Δra = radius × (180/π) / cos(dec)` (in degrees — an extra 180/π factor
over the spec's `radius / cos(dec)`), and when the resulting ra window
crosses the 0/360 boundary (raMin > raMax) it selects ra from the union
of the two ranges [raMin, 360] and [0, raMax]. -/
theorem coneSearch_prefilter_amended (q : ConeQuery) (ra : ℝ)
    (h : raMax q < raMin q) :
    deltaRa q = q.radius * (180 / Real.pi) / Real.cos (radians q.dec) ∧
    (raWindow q ra ↔ (raMin q ≤ ra ∧ ra ≤ 360) ∨ (0 ≤ ra ∧ ra ≤ raMax q)) := by
  constructor
  · unfold deltaRa
    ring
  · unfold raWindow
    rw [if_pos h]

theorem deltaRa_coneQ1 : deltaRa coneQ1 = 180 / Real.pi := by
  unfold deltaRa coneQ1 radians
  simp [Real.cos_zero]

theorem raMin_coneQ1 : raMin coneQ1 = 360 - 180 / Real.pi := by
  have hπ3 : (3 : ℝ) < Real.pi := Real.pi_gt_three
  unfold raMin
  rw [deltaRa_coneQ1]
  have harg : coneQ1.ra - 180 / Real.pi + 360 = 360 - 180 / Real.pi := by
    unfold coneQ1
    ring
  rw [harg]
  apply jsMod_eq_self
  · have h1 : 180 / Real.pi ≤ 60 := by
      rw [div_le_iff₀ (by linarith)]
      nlinarith
    linarith
  · have h2 : 0 < 180 / Real.pi := by positivity
    linarith

theorem raMax_coneQ1 : raMax coneQ1 = 180 / Real.pi := by
  have hπ3 : (3 : ℝ) < Real.pi := Real.pi_gt_three
  unfold raMax
  rw [deltaRa_coneQ1]
  have harg : coneQ1.ra + 180 / Real.pi = 180 / Real.pi := by
    unfold coneQ1
    ring
  rw [harg]
  apply jsMod_eq_self
  · positivity
  · rw [div_lt_iff₀ (by linarith)]
    nlinarith

/-- Witness for C2's amended theorem: the query (ra 0, dec 0, radius 1°)
produces a wrapping window (raMax ≈ 57.3 < raMin ≈ 302.7), where the
selection is the stated union of the two ranges. -/
theorem coneSearch_prefilter_amended_witness :
    raMax coneQ1 < raMin coneQ1 ∧
    (deltaRa coneQ1 = coneQ1.radius * (180 / Real.pi) / Real.cos (radians coneQ1.dec) ∧
      (raWindow coneQ1 350 ↔ (raMin coneQ1 ≤ 350 ∧ (350 : ℝ) ≤ 360) ∨
        ((0 : ℝ) ≤ 350 ∧ (350 : ℝ) ≤ raMax coneQ1))) := by
  have hπ3 : (3 : ℝ) < Real.pi := Real.pi_gt_three
  have h : raMax coneQ1 < raMin coneQ1 := by
    rw [raMin_coneQ1, raMax_coneQ1]
    have h1 : 180 / Real.pi < 60 := by
      rw [div_lt_iff₀ (by linarith)]
      nlinarith
    linarith
  exact ⟨h, coneSearch_prefilter_amended coneQ1 350 h⟩

end GaiaOffline
